import Mathlib

/-!
Verification development for the `mio-data-mining` texture-extraction pipeline
(`src/texture_extraction/extract_final.py`).

The embedding models, faithfully to the Python source:
  * the binary metadata file as an indexable byte sequence (`Bytes`),
  * `parse_texture_map` (little-endian header/slot/indirection reads, the
    bounds checks, Python slice clamping, and lossy ascii decoding),
  * the `convert` multi-backend cascade (ImportError passes, error
    aggregation, the `os.path.exists(dst)` success check),
  * the `main` orchestration loop (missing blobs, destination computation,
    output tree, failure/missing bookkeeping and the printed summary counts).

Machine integers do not overflow here: Python ints are unbounded, so offsets
and lengths are plain `Nat`.
-/

set_option maxRecDepth 8000

deriving instance DecidableEq for Except

namespace MioExtract

/-- A Python `bytes` object: a length together with the byte at each index.
Bytes at indices `≥ len` are never consulted by in-bounds reads. -/
structure Bytes where
  len : Nat
  get : Nat → Nat

/-- Little-endian value of `w` bytes of `d` starting at `off`
(the value `struct.unpack_from` produces when the read is in bounds). -/
def word (d : Bytes) (off : Nat) : Nat → Nat
  | 0 => 0
  | w + 1 => d.get off + 256 * word d (off + 1) w

/-- `struct.unpack_from for <I or <Q at data, off`: returns the little-endian
value when `off + w ≤ len(data)` and raises `struct.error` (here: `none`)
otherwise. -/
def readLE (d : Bytes) (off w : Nat) : Option Nat :=
  if off + w ≤ d.len then some (word d off w) else none

/-- Python slice `data[a : b]` for `a ≤ len`: clamped at the end of the
buffer, never raising. -/
def sliceBytes (d : Bytes) (a b : Nat) : List Nat :=
  (List.range (min b d.len - a)).map (fun i => d.get (a + i))

/-- the lossy ascii decode with replacement: bytes below 128 decode to
themselves, any other byte becomes U+FFFD. Never raises. -/
def decodeReplace (bs : List Nat) : List Nat :=
  bs.map (fun b => if b < 128 then b else 0xFFFD)

/-- The loop body of `parse_texture_map` over the remaining identifiers `ns`,
threading the accumulated `index_map` (a Python dict, modelled as a
function to `Option`). A failing indirection read (`struct.error`) aborts
the whole parse, exactly as the uncaught exception does in Python. -/
def parseGo (d : Bytes) (tableOff compOff : Nat) :
    List Nat → (Nat → Option (List Nat)) → Except Unit (Nat → Option (List Nat))
  | [], m => Except.ok m
  | n :: ns, m =>
    match readLE d (compOff + n * 4) 4 with
    | none => Except.error ()
    | some slot =>
      let off := tableOff + slot * 32
      if off + 32 > d.len then
        parseGo d tableOff compOff ns m
      else
        let strAbs := word d (off + 8) 8
        let strLen := word d (off + 16) 8
        if 0 < strLen ∧ 0 < strAbs ∧ strAbs < d.len then
          parseGo d tableOff compOff ns
            (fun k =>
              if k = n then some (decodeReplace (sliceBytes d strAbs (strAbs + strLen)))
              else m k)
        else
          parseGo d tableOff compOff ns m

/-- `parse_texture_map(meta_path)` with the file contents `d` and the loop
bound `N_TEXTURES` generalized to `nTex`. Reads `table_off` at `0x0080` and
`comp_off` at `0x0098` (u32, little-endian); a header read past the end of
the file is the run-fatal `struct.error`. -/
def parse_texture_map (d : Bytes) (nTex : Nat) :
    Except Unit (Nat → Option (List Nat)) :=
  match readLE d 0x80 4, readLE d 0x98 4 with
  | some tableOff, some compOff =>
      parseGo d tableOff compOff (List.range nTex) (fun _ => none)
  | _, _ => Except.error ()

/-- `index_map.get(n)` on the parse result; `none` both for an unmapped
identifier and for an aborted parse. -/
def lookupParsed (d : Bytes) (nTex n : Nat) : Option (List Nat) :=
  match parse_texture_map d nTex with
  | Except.ok m => m n
  | Except.error _ => none

/-- Whether `parse_texture_map` runs to completion (no uncaught exception). -/
def parseSucceeds (d : Bytes) (nTex : Nat) : Bool :=
  match parse_texture_map d nTex with
  | Except.ok _ => true
  | Except.error _ => false

/-- The value iteration `n` of the parse loop stores for identifier `n`
(`none` when the loop leaves `n` unmapped, or when the indirection read
would have aborted). -/
def stepValue (d : Bytes) (tableOff compOff n : Nat) : Option (List Nat) :=
  match readLE d (compOff + n * 4) 4 with
  | none => none
  | some slot =>
    let off := tableOff + slot * 32
    if off + 32 > d.len then none
    else
      let strAbs := word d (off + 8) 8
      let strLen := word d (off + 16) 8
      if 0 < strLen ∧ 0 < strAbs ∧ strAbs < d.len then
        some (decodeReplace (sliceBytes d strAbs (strAbs + strLen)))
      else none

/-! Concrete metadata files used by counterexamples and witnesses. -/

/-- A 0x9C-byte file: both header fields are present (`table_off = 0`,
`comp_off = 0x9C`), but the indirection array sits exactly at the end of
file, so reading `indirection[0]` raises `struct.error`. -/
def c1data : Bytes :=
  ⟨0x9C, fun i => if i = 0x98 then 0x9C else 0⟩

/-- A file whose slot table (`table_off = 0xC0`) would end at byte
`0xC0 + 1024*32 = 32960 = len`: `comp = [5, 1050]`, slot 5 holds the
string "ok" (`str_abs = 96`, `str_len = 2`), slot 1050 lies past the end
of the file. -/
def d2wAt (i : Nat) : Nat :=
  if i = 0x80 then 0xC0
  else if i = 0x98 then 0xA0
  else if i = 0xA0 then 5
  else if i = 0xA4 then 0x1A
  else if i = 0xA5 then 4
  else if i = 360 then 96
  else if i = 368 then 2
  else if i = 96 then 111
  else if i = 97 then 107
  else 0

def d2w : Bytes := ⟨32960, d2wAt⟩

/-- A file extending past its 1024-slot table (`table_off = 512`):
`comp = [5, 1050]`; slot 1050 is beyond the table's 1024 slots but its
32-byte record still lies inside the file and holds a valid string
descriptor (`str_abs = 116`, `str_len = 4`, bytes "defg"). -/
def d2cAt (i : Nat) : Nat :=
  if i = 0x81 then 2
  else if i = 0x98 then 0xA0
  else if i = 0xA0 then 5
  else if i = 0xA4 then 0x1A
  else if i = 0xA5 then 4
  else if i = 680 then 100
  else if i = 688 then 3
  else if i = 34120 then 116
  else if i = 34128 then 4
  else if i = 100 then 97
  else if i = 101 then 98
  else if i = 102 then 99
  else if i = 116 then 100
  else if i = 117 then 101
  else if i = 118 then 102
  else if i = 119 then 103
  else 0

def d2c : Bytes := ⟨34200, d2cAt⟩

/-- A 200-byte file (`table_off = 0`, `comp = [4]`): slot 4's record is in
bounds with `str_abs = 199`, `str_len = 5`, so the string range runs past
the end of the file; byte 199 is 33. -/
def d3cAt (i : Nat) : Nat :=
  if i = 0x98 then 0xA0
  else if i = 0xA0 then 4
  else if i = 136 then 199
  else if i = 144 then 5
  else if i = 199 then 33
  else 0

def d3c : Bytes := ⟨200, d3cAt⟩

/-! ## Conversion backends and `convert` -/

/-- How one invocation of a backend's conversion function ends:
`declines` = it raises `ImportError` (dependency missing), `fails` = it
raises any other exception with message `msg`, `returns` = it returns
normally. -/
inductive BOutcome where
  | declines
  | fails (msg : String)
  | returns
deriving DecidableEq

/-- The observable effect of calling one backend function on a source blob:
its outcome, and the destination-file content it wrote during the call
(`none` = it did not create or overwrite the destination). Backends are
external libraries; their behaviour is a parameter of the model, but the
control flow around them is the code's. -/
structure BackendRun where
  outcome : BOutcome
  writes : Option (List Nat)

/-- One `(name, fn)` entry of the `BACKENDS` list; the function's behaviour
depends only on the source bytes (deterministic external tool). -/
abbrev Backend := String × (List Nat → BackendRun)

/-- Result of `convert`: `res` is the returned backend name or the
aggregated `RuntimeError` entries, `dst` the destination file's content
afterwards (`none` = no file), `trace` the names of the backends invoked,
in order. -/
structure ConvResult where
  res : Except (List String) String
  dst : Option (List Nat)
  trace : List String

/-- File-system update: the content written during a call, else what was
there before. -/
def optOr (a b : Option (List Nat)) : Option (List Nat) :=
  match a with
  | some c => some c
  | none => b

/-- The `for name, fn in BACKENDS` loop of `convert`: on a normal return the
`os.path.exists(dst)` check ends the loop; `ImportError` is passed over
silently; any other exception's text is appended as the backend name, a colon and the message. -/
def convertGo (src : List Nat) :
    List Backend → List String → Option (List Nat) → ConvResult
  | [], errs, d => ⟨Except.error errs, d, []⟩
  | (nm, fn) :: bs, errs, d =>
    let r := fn src
    let d' := optOr r.writes d
    match r.outcome with
    | BOutcome.declines =>
      let rest := convertGo src bs errs d'
      ⟨rest.res, rest.dst, nm :: rest.trace⟩
    | BOutcome.fails m =>
      let rest := convertGo src bs (errs ++ [nm ++ ": " ++ m]) d'
      ⟨rest.res, rest.dst, nm :: rest.trace⟩
    | BOutcome.returns =>
      if d'.isSome then ⟨Except.ok nm, d', [nm]⟩
      else
        let rest := convertGo src bs errs d'
        ⟨rest.res, rest.dst, nm :: rest.trace⟩

/-- `convert(src, dst)` with the destination file's prior content
`dstPrior` (the file may persist from an earlier identifier or an earlier
run; `errors` starts empty). -/
def convert (bs : List Backend) (src : List Nat) (dstPrior : Option (List Nat)) :
    ConvResult :=
  convertGo src bs [] dstPrior

/-- The `BACKENDS` constant: fixed trial order imageio, Wand, Pillow,
texconv, with each backend's behaviour a parameter. -/
def BACKENDS (bImageio bWand bPillow bTexconv : List Nat → BackendRun) :
    List Backend :=
  [("imageio", bImageio), ("Wand", bWand), ("Pillow", bPillow), ("texconv", bTexconv)]

/-- The error entry backend `p` contributes to the aggregated error for
source `src` (`none` when it declines or returns normally). -/
def failEntry (src : List Nat) (p : Backend) : Option String :=
  match (p.2 src).outcome with
  | BOutcome.fails m => some (p.1 ++ ": " ++ m)
  | _ => none

/-! ## Decoded images and the two-channel padding of `try_imageio` -/

/-- A decoded image as `imageio`/numpy sees it: `ndim` array dimensionality,
`h`/`w`/`c` the shape (for `ndim = 3`), and the pixel values indexed by
row, column, channel. -/
structure Img where
  ndim : Nat
  h : Nat
  w : Nat
  c : Nat
  px : Nat → Nat → Nat → Nat

/-- The BC5 padding block of `try_imageio`: a 3-dimensional 2-channel image
becomes a 4-channel zero-initialised image whose channels 0 and 1 are
copied from the original; anything else passes through unchanged. -/
def padTwoChannel (img : Img) : Img :=
  if img.ndim = 3 ∧ img.c = 2 then
    { ndim := 3, h := img.h, w := img.w, c := 4,
      px := fun y x ch =>
        if ch = 0 then img.px y x 0
        else if ch = 1 then img.px y x 1
        else 0 }
  else img

/-- `try_imageio`: decode via the imageio library (`readImg`, a parameter),
apply the padding block, write the result. The written image is the
function's value. -/
def try_imageio (readImg : List Nat → Img) (src : List Nat) : Img :=
  padTwoChannel (readImg src)

/-- `try_wand`: open with the wand library, set format to png, save. The
code performs no channel manipulation; the written image is exactly what
the external library produces (`wandConvert`, a parameter). -/
def try_wand (wandConvert : List Nat → Img) (src : List Nat) : Img :=
  wandConvert src

/-- `try_pillow`: `Image.open(src).save(dst, PNG)`; like `try_wand`, a
pure delegation to the external library with no channel handling. -/
def try_pillow (pilConvert : List Nat → Img) (src : List Nat) : Img :=
  pilConvert src

/-! ## The `main` orchestration loop -/

/-- A destination inside `OUTPUT_DIR`: either mirrored from a resolved game
path (its directory part and stem, `.png` appended), or the per-identifier
fallback `_unmatched/texture_n.png`. -/
inductive Dst where
  | named (dir stem : List Nat)
  | unmatched (n : Nat)
deriving DecidableEq

/-- The output tree: content of the file at each destination. -/
def Tree := Dst → Option (List Nat)

def emptyTree : Tree := fun _ => none

/-- Path separators recognised by `os.path` on Windows (`/` and `\`). -/
def isSep (c : Nat) : Bool := c == 47 || c == 92

/-- Index of the last path separator in `p`, if any. -/
def lastSepIdx (p : List Nat) : Option Nat :=
  (List.range p.length).foldl
    (fun acc i => if isSep (p.getD i 0) then some i else acc) none

/-- `os.path.basename`: everything after the last separator. -/
def basenameP (p : List Nat) : List Nat :=
  match lastSepIdx p with
  | none => p
  | some i => p.drop (i + 1)

def dropTrailingSeps (xs : List Nat) : List Nat :=
  (xs.reverse.dropWhile (fun c => isSep c)).reverse

/-- `os.path.dirname`: up to the last separator, trailing separators
stripped unless the head is all separators. -/
def dirnameP (p : List Nat) : List Nat :=
  match lastSepIdx p with
  | none => []
  | some i =>
    let head := p.take (i + 1)
    if head.all (fun c => isSep c) then head else dropTrailingSeps head

/-- Index of the last dot (byte 46) in a basename, if any. -/
def rlastDotIdx (bn : List Nat) : Option Nat :=
  (List.range bn.length).foldl
    (fun acc i => if bn.getD i 0 == 46 then some i else acc) none

/-- `os.path.splitext(...)[0]` on a basename: cut at the last dot unless
every character before it is a dot (leading-dot files keep their name). -/
def splitextStem (bn : List Nat) : List Nat :=
  match rlastDotIdx bn with
  | none => bn
  | some i => if (bn.take i).all (fun c => c == 46) then bn else bn.take i

/-- The destination chosen by `main` for identifier `n`: Python's
`if game_path:` is truthiness, so an empty resolved path also goes to
`_unmatched`. -/
def dstKeyOf (gp : Option (List Nat)) (n : Nat) : Dst :=
  match gp with
  | some p =>
    if p.isEmpty then Dst.unmatched n
    else Dst.named (dirnameP p) (splitextStem (basenameP p))
  | none => Dst.unmatched n

/-- The per-run mutable state of `main`'s loop: the output tree and the
`ok` / `failed` / `missing` accumulators (a failure records the
identifier, its destination label and the aggregated backend error
texts). -/
structure RunState where
  tree : Tree
  ok : Nat
  failed : List (Nat × Dst × List String)
  missing : List Nat

/-- One iteration of `main`'s loop for identifier `n`: a missing blob is
recorded and skipped; otherwise the blob is converted towards its
destination (whose current content `convert`'s existence check can see)
and the outcome recorded. -/
def runStep (imap blobs : Nat → Option (List Nat)) (bs : List Backend)
    (st : RunState) (n : Nat) : RunState :=
  match blobs n with
  | none => { st with missing := st.missing ++ [n] }
  | some c =>
    let dk := dstKeyOf (imap n) n
    let cv := convert bs c (st.tree dk)
    let tree' : Tree := fun k => if k = dk then cv.dst else st.tree k
    match cv.res with
    | Except.ok _ => { st with tree := tree', ok := st.ok + 1 }
    | Except.error es =>
      { st with tree := tree', failed := st.failed ++ [(n, dk, es)] }

/-- The whole run of `main` over identifiers `0 .. nTex-1`, from an initial
output tree `t0` (the tree persists between runs; nothing else does —
the temp directory is fresh per run). -/
def runExtract (nTex : Nat) (imap blobs : Nat → Option (List Nat))
    (bs : List Backend) (t0 : Tree) : RunState :=
  (List.range nTex).foldl (runStep imap blobs bs) ⟨t0, 0, [], []⟩

/-- The `Named (...): X converted` count printed by the summary:
`sum(1 for n in range(N) if n in index_map and n not in failed_ns)`. -/
def namedConvertedCount (nTex : Nat) (imap : Nat → Option (List Nat))
    (st : RunState) : Nat :=
  (List.range nTex).countP
    (fun n => (imap n).isSome && !(st.failed.any (fun f => f.1 == n)))

/-! Concrete backend behaviours for counterexamples and witnesses. -/

/-- A backend whose import fails (`ImportError`). -/
def bDecl : List Nat → BackendRun := fun _ => ⟨BOutcome.declines, none⟩

/-- All four backends attempt and fail with distinct messages. -/
def allFail4 : List Backend :=
  BACKENDS (fun _ => ⟨BOutcome.fails "e1", none⟩)
           (fun _ => ⟨BOutcome.fails "e2", none⟩)
           (fun _ => ⟨BOutcome.fails "e3", none⟩)
           (fun _ => ⟨BOutcome.fails "e4", none⟩)

/-- imageio returns normally but writes an empty destination file; Wand
would write a non-empty one but is never reached. -/
def emptyFirst : List Backend :=
  BACKENDS (fun _ => ⟨BOutcome.returns, some []⟩)
           (fun _ => ⟨BOutcome.returns, some [1, 2, 3]⟩)
           bDecl bDecl

/-- imageio declines, Wand returns normally without creating the
destination, Pillow and texconv decline: the aggregated error is empty. -/
def noEntry4 : List Backend :=
  BACKENDS bDecl (fun _ => ⟨BOutcome.returns, none⟩) bDecl bDecl

/-- imageio fails, Wand succeeds with a non-empty file. -/
def wandWins : List Backend :=
  BACKENDS (fun _ => ⟨BOutcome.fails "x", none⟩)
           (fun _ => ⟨BOutcome.returns, some [1]⟩)
           bDecl bDecl

/-- imageio returns normally without writing; Wand writes the destination
and then raises; Pillow and texconv decline. Run 1 fails but leaves the
destination file behind; run 2 then succeeds off the stale file. -/
def staleTrap : List Backend :=
  BACKENDS (fun _ => ⟨BOutcome.returns, none⟩)
           (fun _ => ⟨BOutcome.fails "boom", some [7]⟩)
           bDecl bDecl

/-- imageio always succeeds, writing the destination. -/
def writeOk : List Backend :=
  BACKENDS (fun _ => ⟨BOutcome.returns, some [3]⟩) bDecl bDecl bDecl

/-- A 2-channel decoded image (BC5-style), constant pixel value 7. -/
def twoChan : Img := ⟨3, 1, 1, 2, fun _ _ _ => 7⟩

/-- An imageio decode producing a 1x1 2-channel image whose channel `ch`
holds `ch + 5`. -/
def cRead : List Nat → Img := fun _ => ⟨3, 1, 1, 2, fun _ _ ch => ch + 5⟩

/-- An index map resolving identifier 0 (path "a") and nothing else. -/
def c8imap : Nat → Option (List Nat) := fun n => if n = 0 then some [97] else none

/-- No blob file exists on disk. -/
def c8blobs : Nat → Option (List Nat) := fun _ => none

/-- A run over one identifier whose path resolves but whose blob is absent. -/
def c8run : RunState :=
  runExtract 1 c8imap c8blobs (BACKENDS bDecl bDecl bDecl bDecl) emptyTree

/-- Every identifier maps to no path. -/
def imap0 : Nat → Option (List Nat) := fun _ => none

/-- Every identifier's blob exists with content `[9]`. -/
def blob9 : Nat → Option (List Nat) := fun _ => some [9]

/-! ## Lemmas about `parse_texture_map` -/

theorem parseGo_ok_notmem (d : Bytes) (a b : Nat) :
    ∀ (ns : List Nat) (m m' : Nat → Option (List Nat)) (k : Nat),
      parseGo d a b ns m = Except.ok m' → k ∉ ns → m' k = m k := by
  intro ns
  induction ns with
  | nil =>
    intro m m' k h _
    simp only [parseGo, Except.ok.injEq] at h
    rw [← h]
  | cons n ns ih =>
    intro m m' k h hk
    rw [List.mem_cons, not_or] at hk
    obtain ⟨hkn, hkns⟩ := hk
    simp only [parseGo] at h
    cases hr : readLE d (b + n * 4) 4 with
    | none => rw [hr] at h; exact absurd h (by simp)
    | some slot =>
      rw [hr] at h
      dsimp only at h
      split at h
      · exact ih _ _ _ h hkns
      · split at h
        · have hrec := ih _ _ _ h hkns
          rw [hrec]
          simp [hkn]
        · exact ih _ _ _ h hkns

theorem parseGo_ok_mem (d : Bytes) (a b : Nat) :
    ∀ (ns : List Nat) (m m' : Nat → Option (List Nat)) (n : Nat),
      parseGo d a b ns m = Except.ok m' → ns.Nodup → n ∈ ns → m n = none →
      m' n = stepValue d a b n := by
  intro ns
  induction ns with
  | nil => intro m m' n _ _ hn _; exact absurd hn (List.not_mem_nil n)
  | cons k ks ih =>
    intro m m' n h hnd hn hmn
    rw [List.nodup_cons] at hnd
    obtain ⟨hknotin, hndks⟩ := hnd
    simp only [parseGo] at h
    cases hr : readLE d (b + k * 4) 4 with
    | none => rw [hr] at h; exact absurd h (by simp)
    | some slot =>
      rw [hr] at h
      dsimp only at h
      rcases List.mem_cons.mp hn with hnk | hnks
      · subst hnk
        split at h
        · next hoob =>
          have := parseGo_ok_notmem d a b ks _ _ n h hknotin
          rw [this, hmn]
          simp [stepValue, hr, hoob]
        · next hoob =>
          split at h
          · next hcond =>
            have := parseGo_ok_notmem d a b ks _ _ n h hknotin
            rw [this]
            simp [stepValue, hr, hoob, hcond]
          · next hcond =>
            have := parseGo_ok_notmem d a b ks _ _ n h hknotin
            rw [this, hmn]
            simp [stepValue, hr, hoob, hcond]
      · have hne : n ≠ k := fun he => hknotin (he ▸ hnks)
        split at h
        · exact ih _ _ _ h hndks hnks hmn
        · split at h
          · refine ih _ _ _ h hndks hnks ?_
            simp [hne, hmn]
          · exact ih _ _ _ h hndks hnks hmn

theorem parseGo_ok_of_bounds (d : Bytes) (a b : Nat) :
    ∀ (ns : List Nat) (m : Nat → Option (List Nat)),
      (∀ n ∈ ns, b + n * 4 + 4 ≤ d.len) →
      ∃ m', parseGo d a b ns m = Except.ok m' := by
  intro ns
  induction ns with
  | nil => intro m _; exact ⟨m, rfl⟩
  | cons n ns ih =>
    intro m hb
    have hr : readLE d (b + n * 4) 4 = some (word d (b + n * 4) 4) := by
      unfold readLE
      rw [if_pos (hb n (List.mem_cons_self n ns))]
    have htail : ∀ k ∈ ns, b + k * 4 + 4 ≤ d.len :=
      fun k hk => hb k (List.mem_cons_of_mem n hk)
    simp only [parseGo, hr]
    split
    · exact ih m htail
    · split
      · exact ih _ htail
      · exact ih m htail

theorem lookupParsed_eq (d : Bytes) (nTex n tableOff compOff : Nat)
    (ht : readLE d 0x80 4 = some tableOff) (hc : readLE d 0x98 4 = some compOff)
    (hok : parseSucceeds d nTex = true) (hn : n < nTex) :
    lookupParsed d nTex n = stepValue d tableOff compOff n := by
  unfold parseSucceeds at hok
  unfold lookupParsed
  unfold parse_texture_map at hok ⊢
  rw [ht, hc] at hok ⊢
  dsimp only at hok ⊢
  cases hp : parseGo d tableOff compOff (List.range nTex) (fun _ => none) with
  | error e => rw [hp] at hok; simp at hok
  | ok m =>
    exact parseGo_ok_mem d tableOff compOff (List.range nTex) _ m n hp
      (List.nodup_range nTex) (List.mem_range.mpr hn) rfl

/-! ## Lemmas about `convert` -/

theorem optOr_none_right (a : Option (List Nat)) : optOr a none = a := by
  cases a <;> rfl

theorem optOr_assoc (a b c : Option (List Nat)) :
    optOr a (optOr b c) = optOr (optOr a b) c := by
  cases a <;> cases b <;> rfl

theorem getLast?_cons_ne {α : Type} (a : α) (l : List α) (h : l ≠ []) :
    (a :: l).getLast? = l.getLast? := by
  cases l with
  | nil => exact absurd rfl h
  | cons b t => exact List.getLast?_cons_cons

theorem convertGo_error_spec (src : List Nat) :
    ∀ (bs : List Backend) (errs : List String) (d : Option (List Nat))
      (es : List String),
      (convertGo src bs errs d).res = Except.error es →
      es = errs ++ bs.filterMap (failEntry src) ∧
      (convertGo src bs errs d).trace = bs.map Prod.fst := by
  intro bs
  induction bs with
  | nil =>
    intro errs d es h
    simp only [convertGo] at h ⊢
    cases h
    exact ⟨by simp, rfl⟩
  | cons p bs ih =>
    intro errs d es h
    obtain ⟨nm, fn⟩ := p
    simp only [convertGo] at h ⊢
    cases ho : (fn src).outcome with
    | declines =>
      rw [ho] at h
      dsimp only at h ⊢
      obtain ⟨h1, h2⟩ := ih _ _ _ h
      refine ⟨?_, by simp [h2]⟩
      rw [h1]
      simp [failEntry, ho]
    | fails m =>
      rw [ho] at h
      dsimp only at h ⊢
      obtain ⟨h1, h2⟩ := ih _ _ _ h
      refine ⟨?_, by simp [h2]⟩
      rw [h1]
      simp [failEntry, ho]
    | returns =>
      rw [ho] at h
      dsimp only at h ⊢
      split at h
      · exact absurd h (by simp)
      · next hns =>
        rw [if_neg hns]
        obtain ⟨h1, h2⟩ := ih _ _ _ h
        refine ⟨?_, by simp [h2]⟩
        rw [h1]
        simp [failEntry, ho]

theorem convertGo_allfail (src : List Nat) :
    ∀ (bs : List Backend) (errs : List String) (d : Option (List Nat)),
      (∀ p ∈ bs, (p.2 src).outcome ≠ BOutcome.returns) →
      (convertGo src bs errs d).res =
        Except.error (errs ++ bs.filterMap (failEntry src)) := by
  intro bs
  induction bs with
  | nil => intro errs d _; simp [convertGo]
  | cons p bs ih =>
    intro errs d hnr
    obtain ⟨nm, fn⟩ := p
    have hhead : (fn src).outcome ≠ BOutcome.returns :=
      hnr (nm, fn) (List.mem_cons_self _ _)
    have htail : ∀ q ∈ bs, (q.2 src).outcome ≠ BOutcome.returns :=
      fun q hq => hnr q (List.mem_cons_of_mem _ hq)
    simp only [convertGo]
    cases ho : (fn src).outcome with
    | declines =>
      dsimp only
      rw [ih _ _ htail]
      simp [failEntry, ho]
    | fails m =>
      dsimp only
      rw [ih _ _ htail]
      simp [failEntry, ho]
    | returns => exact absurd ho hhead

theorem convertGo_trace_take (src : List Nat) :
    ∀ (bs : List Backend) (errs : List String) (d : Option (List Nat)),
      ∃ k, (convertGo src bs errs d).trace = (bs.map Prod.fst).take k := by
  intro bs
  induction bs with
  | nil => intro errs d; exact ⟨0, rfl⟩
  | cons p bs ih =>
    intro errs d
    obtain ⟨nm, fn⟩ := p
    simp only [convertGo]
    cases ho : (fn src).outcome with
    | declines =>
      obtain ⟨k, hk⟩ := ih errs (optOr (fn src).writes d)
      exact ⟨k + 1, by simp [hk]⟩
    | fails m =>
      obtain ⟨k, hk⟩ := ih (errs ++ [nm ++ ": " ++ m]) (optOr (fn src).writes d)
      exact ⟨k + 1, by simp [hk]⟩
    | returns =>
      dsimp only
      split
      · exact ⟨1, by simp⟩
      · obtain ⟨k, hk⟩ := ih errs (optOr (fn src).writes d)
        exact ⟨k + 1, by simp [hk]⟩

theorem convertGo_ok_spec (src : List Nat) :
    ∀ (bs : List Backend) (errs : List String) (d : Option (List Nat))
      (nm : String),
      (convertGo src bs errs d).res = Except.ok nm →
      (convertGo src bs errs d).trace ≠ [] ∧
      (convertGo src bs errs d).trace.getLast? = some nm ∧
      ((convertGo src bs errs d).dst).isSome = true := by
  intro bs
  induction bs with
  | nil => intro errs d nm h; exact absurd h (by simp [convertGo])
  | cons p bs ih =>
    intro errs d nm h
    obtain ⟨q, fn⟩ := p
    simp only [convertGo] at h ⊢
    cases ho : (fn src).outcome with
    | declines =>
      rw [ho] at h
      dsimp only at h ⊢
      obtain ⟨h1, h2, h3⟩ := ih _ _ _ h
      exact ⟨by simp, by rwa [getLast?_cons_ne q _ h1], h3⟩
    | fails m =>
      rw [ho] at h
      dsimp only at h ⊢
      obtain ⟨h1, h2, h3⟩ := ih _ _ _ h
      exact ⟨by simp, by rwa [getLast?_cons_ne q _ h1], h3⟩
    | returns =>
      rw [ho] at h
      dsimp only at h ⊢
      split at h
      · next hs =>
        rw [if_pos hs]
        injection h with hq
        subst hq
        exact ⟨by simp, rfl, hs⟩
      · next hs =>
        rw [if_neg hs]
        obtain ⟨h1, h2, h3⟩ := ih _ _ _ h
        exact ⟨by simp, by rwa [getLast?_cons_ne q _ h1], h3⟩

theorem convertGo_prior (src : List Nat) :
    ∀ (bs : List Backend),
      (∀ p ∈ bs, ∀ c, (p.2 c).outcome = BOutcome.returns →
        ((p.2 c).writes).isSome = true) →
      ∀ (errs : List String) (d : Option (List Nat)),
        (convertGo src bs errs d).res = (convertGo src bs errs none).res ∧
        (convertGo src bs errs d).trace = (convertGo src bs errs none).trace ∧
        (convertGo src bs errs d).dst = optOr (convertGo src bs errs none).dst d := by
  intro bs
  induction bs with
  | nil =>
    intro _ errs d
    exact ⟨rfl, rfl, rfl⟩
  | cons p bs ih =>
    intro hw errs d
    obtain ⟨nm, fn⟩ := p
    have hwhead := hw (nm, fn) (List.mem_cons_self _ _)
    have hwtail : ∀ q ∈ bs, ∀ c, (q.2 c).outcome = BOutcome.returns →
        ((q.2 c).writes).isSome = true :=
      fun q hq => hw q (List.mem_cons_of_mem _ hq)
    simp only [convertGo]
    cases ho : (fn src).outcome with
    | declines =>
      dsimp only
      obtain ⟨r1, r2, r3⟩ := ih hwtail errs (optOr (fn src).writes d)
      obtain ⟨s1, s2, s3⟩ := ih hwtail errs (optOr (fn src).writes none)
      refine ⟨?_, ?_, ?_⟩
      · rw [r1, s1]
      · rw [r2, s2]
      · rw [r3, s3, optOr_none_right]
        exact optOr_assoc _ _ _
    | fails m =>
      dsimp only
      obtain ⟨r1, r2, r3⟩ :=
        ih hwtail (errs ++ [nm ++ ": " ++ m]) (optOr (fn src).writes d)
      obtain ⟨s1, s2, s3⟩ :=
        ih hwtail (errs ++ [nm ++ ": " ++ m]) (optOr (fn src).writes none)
      refine ⟨?_, ?_, ?_⟩
      · rw [r1, s1]
      · rw [r2, s2]
      · rw [r3, s3, optOr_none_right]
        exact optOr_assoc _ _ _
    | returns =>
      dsimp only
      obtain ⟨cw, hcw⟩ := Option.isSome_iff_exists.mp (hwhead src ho)
      rw [hcw]
      dsimp only [optOr]
      exact ⟨rfl, rfl, rfl⟩

/-! ## Lemmas about the `main` loop -/

theorem optOr_none_left (b : Option (List Nat)) : optOr none b = b := rfl

theorem convert_prior (bs : List Backend)
    (hw : ∀ p ∈ bs, ∀ c, (p.2 c).outcome = BOutcome.returns →
      ((p.2 c).writes).isSome = true)
    (src : List Nat) (d : Option (List Nat)) :
    (convert bs src d).res = (convert bs src none).res ∧
    (convert bs src d).dst = optOr (convert bs src none).dst d :=
  ⟨(convertGo_prior src bs hw [] d).1, (convertGo_prior src bs hw [] d).2.2⟩

theorem runStep_missing (imap blobs : Nat → Option (List Nat)) (bs : List Backend)
    (st : RunState) (n : Nat) :
    (runStep imap blobs bs st n).missing =
      st.missing ++ (if (blobs n).isNone then [n] else []) := by
  unfold runStep
  cases hb : blobs n with
  | none => simp
  | some c =>
    dsimp only
    split <;> simp

theorem runStep_sum (imap blobs : Nat → Option (List Nat)) (bs : List Backend)
    (st : RunState) (n : Nat) :
    (runStep imap blobs bs st n).ok + ((runStep imap blobs bs st n).failed).length +
      ((runStep imap blobs bs st n).missing).length =
      st.ok + st.failed.length + st.missing.length + 1 := by
  unfold runStep
  cases hb : blobs n with
  | none => simp; omega
  | some c =>
    dsimp only
    split <;> simp <;> omega

theorem run_acc (imap blobs : Nat → Option (List Nat)) (bs : List Backend) :
    ∀ (ns : List Nat) (st : RunState),
      (ns.foldl (runStep imap blobs bs) st).missing =
        st.missing ++ ns.filter (fun n => (blobs n).isNone) ∧
      (ns.foldl (runStep imap blobs bs) st).ok +
        ((ns.foldl (runStep imap blobs bs) st).failed).length +
        ((ns.foldl (runStep imap blobs bs) st).missing).length =
        st.ok + st.failed.length + st.missing.length + ns.length := by
  intro ns
  induction ns with
  | nil => intro st; simp
  | cons n ns ih =>
    intro st
    rw [List.foldl_cons]
    obtain ⟨h1, h2⟩ := ih (runStep imap blobs bs st n)
    constructor
    · rw [h1, runStep_missing, List.filter_cons]
      cases hnn : (blobs n).isNone <;> simp
    · rw [h2, runStep_sum]
      simp
      omega

theorem runStep_failed_ne (imap blobs : Nat → Option (List Nat)) (bs : List Backend)
    (st : RunState) (m n : Nat) (hmn : m ≠ n) :
    ((runStep imap blobs bs st m).failed).countP (fun f => decide (f.1 = n)) =
      (st.failed).countP (fun f => decide (f.1 = n)) := by
  unfold runStep
  cases hb : blobs m with
  | none => rfl
  | some c =>
    dsimp only
    split
    · rfl
    · simp [List.countP_append, List.countP_cons, hmn]

theorem run_count_frozen (imap blobs : Nat → Option (List Nat)) (bs : List Backend)
    (n : Nat) :
    ∀ (ns : List Nat) (st : RunState), n ∉ ns →
      ((ns.foldl (runStep imap blobs bs) st).failed).countP (fun f => decide (f.1 = n)) =
        (st.failed).countP (fun f => decide (f.1 = n)) := by
  intro ns
  induction ns with
  | nil => intro st _; rfl
  | cons m ms ih =>
    intro st hn
    rw [List.mem_cons, not_or] at hn
    obtain ⟨hnm, hnms⟩ := hn
    rw [List.foldl_cons, ih _ hnms, runStep_failed_ne]
    exact fun he => hnm he.symm

theorem runStep_failed_hit (imap blobs : Nat → Option (List Nat)) (bs : List Backend)
    (st : RunState) (n : Nat) (c : List Nat) (hb : blobs n = some c)
    (hnr : ∀ p ∈ bs, (p.2 c).outcome ≠ BOutcome.returns) :
    ((runStep imap blobs bs st n).failed).countP (fun f => decide (f.1 = n)) =
      (st.failed).countP (fun f => decide (f.1 = n)) + 1 := by
  unfold runStep
  rw [hb]
  dsimp only
  have hres := convertGo_allfail c bs [] (st.tree (dstKeyOf (imap n) n)) hnr
  unfold convert
  rw [hres]
  dsimp only
  simp [List.countP_append, List.countP_cons]

theorem runStep_sim (imap blobs : Nat → Option (List Nat)) (bs : List Backend)
    (hw : ∀ p ∈ bs, ∀ c, (p.2 c).outcome = BOutcome.returns →
      ((p.2 c).writes).isSome = true)
    (a b : Tree) (s1 s2 : RunState) (n : Nat)
    (h1 : s1.ok = s2.ok) (h2 : s1.failed = s2.failed) (h3 : s1.missing = s2.missing)
    (h4 : ∀ k, s1.tree k = s2.tree k ∨ (s1.tree k = a k ∧ s2.tree k = b k)) :
    (runStep imap blobs bs s1 n).ok = (runStep imap blobs bs s2 n).ok ∧
    (runStep imap blobs bs s1 n).failed = (runStep imap blobs bs s2 n).failed ∧
    (runStep imap blobs bs s1 n).missing = (runStep imap blobs bs s2 n).missing ∧
    (∀ k, (runStep imap blobs bs s1 n).tree k = (runStep imap blobs bs s2 n).tree k ∨
      ((runStep imap blobs bs s1 n).tree k = a k ∧
        (runStep imap blobs bs s2 n).tree k = b k)) := by
  unfold runStep
  cases hb : blobs n with
  | none =>
    dsimp only
    exact ⟨h1, h2, by rw [h3], h4⟩
  | some c =>
    dsimp only
    obtain ⟨e1, d1⟩ := convert_prior bs hw c (s1.tree (dstKeyOf (imap n) n))
    obtain ⟨e2, d2⟩ := convert_prior bs hw c (s2.tree (dstKeyOf (imap n) n))
    have hres : (convert bs c (s1.tree (dstKeyOf (imap n) n))).res =
        (convert bs c (s2.tree (dstKeyOf (imap n) n))).res := e1.trans e2.symm
    have htree : ∀ k,
        (if k = dstKeyOf (imap n) n
          then (convert bs c (s1.tree (dstKeyOf (imap n) n))).dst else s1.tree k) =
          (if k = dstKeyOf (imap n) n
            then (convert bs c (s2.tree (dstKeyOf (imap n) n))).dst else s2.tree k) ∨
        ((if k = dstKeyOf (imap n) n
          then (convert bs c (s1.tree (dstKeyOf (imap n) n))).dst else s1.tree k) = a k ∧
          (if k = dstKeyOf (imap n) n
            then (convert bs c (s2.tree (dstKeyOf (imap n) n))).dst else s2.tree k) = b k) := by
      intro k
      by_cases hk : k = dstKeyOf (imap n) n
      · rw [if_pos hk, if_pos hk, d1, d2]
        cases hv : (convert bs c none).dst with
        | some v => exact Or.inl rfl
        | none =>
          rw [optOr_none_left, optOr_none_left]
          rw [← hk]
          exact h4 k
      · rw [if_neg hk, if_neg hk]
        exact h4 k
    cases hr : (convert bs c (s1.tree (dstKeyOf (imap n) n))).res with
    | ok nm =>
      rw [hr] at hres
      rw [← hres]
      dsimp only
      exact ⟨by rw [h1], h2, h3, htree⟩
    | error es =>
      rw [hr] at hres
      rw [← hres]
      dsimp only
      exact ⟨h1, by rw [h2], h3, htree⟩

theorem runSim (imap blobs : Nat → Option (List Nat)) (bs : List Backend)
    (hw : ∀ p ∈ bs, ∀ c, (p.2 c).outcome = BOutcome.returns →
      ((p.2 c).writes).isSome = true)
    (a b : Tree) :
    ∀ (ns : List Nat) (s1 s2 : RunState),
      s1.ok = s2.ok → s1.failed = s2.failed → s1.missing = s2.missing →
      (∀ k, s1.tree k = s2.tree k ∨ (s1.tree k = a k ∧ s2.tree k = b k)) →
      (ns.foldl (runStep imap blobs bs) s1).ok =
        (ns.foldl (runStep imap blobs bs) s2).ok ∧
      (ns.foldl (runStep imap blobs bs) s1).failed =
        (ns.foldl (runStep imap blobs bs) s2).failed ∧
      (ns.foldl (runStep imap blobs bs) s1).missing =
        (ns.foldl (runStep imap blobs bs) s2).missing ∧
      (∀ k, (ns.foldl (runStep imap blobs bs) s1).tree k =
          (ns.foldl (runStep imap blobs bs) s2).tree k ∨
        ((ns.foldl (runStep imap blobs bs) s1).tree k = a k ∧
          (ns.foldl (runStep imap blobs bs) s2).tree k = b k)) := by
  intro ns
  induction ns with
  | nil => intro s1 s2 h1 h2 h3 h4; exact ⟨h1, h2, h3, h4⟩
  | cons n ns ih =>
    intro s1 s2 h1 h2 h3 h4
    rw [List.foldl_cons, List.foldl_cons]
    obtain ⟨g1, g2, g3, g4⟩ := runStep_sim imap blobs bs hw a b s1 s2 n h1 h2 h3 h4
    exact ih _ _ g1 g2 g3 g4

/-! ## Claim theorems -/

/-- Claim C1, counterexample. The claim asserts that reading the indirection
entry for an identifier in `[0,N)` never aborts the run "whatever the
header's table offsets are", the only run-fatal condition being a file too
short for the header fields. In `c1data` both header fields are readable
(the file is 0x9C bytes, and the fields live at 0x80 and 0x98), yet
`comp_off = 0x9C` puts `indirection[0]` past the end of file, so the
unguarded `struct.unpack_from` raises and the parse aborts. -/
theorem C1_counterexample :
    readLE c1data 0x80 4 = some 0 ∧ readLE c1data 0x98 4 = some 0x9C ∧
    parse_texture_map c1data 549 = Except.error () :=
  ⟨by decide, by decide, by rfl⟩

/-- Claim C1, amended: for every identifier `n` in `[0,N)` resolution yields
a decoded path or leaves `n` unmapped without raising, and the run never
aborts, PROVIDED the indirection array for `[0,N)` lies within the file
(`comp_off + 4·N ≤ file length`); slot records or string ranges outside the
file never abort. (As stated — "whatever the header's table offsets are" —
the claim fails, see the counterexample.) -/
theorem C1_resolution_no_abort (d : Bytes) (nTex tableOff compOff : Nat)
    (ht : readLE d 0x80 4 = some tableOff) (hc : readLE d 0x98 4 = some compOff)
    (hind : compOff + nTex * 4 ≤ d.len) :
    parseSucceeds d nTex = true := by
  unfold parseSucceeds parse_texture_map
  rw [ht, hc]
  dsimp only
  obtain ⟨m, hm⟩ := parseGo_ok_of_bounds d tableOff compOff (List.range nTex)
    (fun _ => none) (fun n hn => by
      have : n < nTex := List.mem_range.mp hn
      omega)
  rw [hm]

/-- Witness for C1: on the concrete file `d2w` (headers `0xC0`/`0xA0`, two
identifiers, indirection array inside the file) the parse completes. -/
theorem C1_resolution_no_abort_witness : parseSucceeds d2w 2 = true :=
  C1_resolution_no_abort d2w 2 0xC0 0xA0 (by decide) (by decide) (by decide)

/-- Claim C2, counterexample. The claim asserts `indirection[n]` is
validated against the SLOT-TABLE bounds, an out-of-bounds slot index
resolving to unmapped. In `d2c` the slot table starts at 512 and the file
extends past it; `indirection[1] = 1050 ≥ 1024`, yet the parse follows
slot 1050 (whose 32-byte record still lies inside the file) and maps
identifier 1 to the string found there — the code checks only the file
length, never the table's 1024-slot capacity. -/
theorem C2_counterexample :
    readLE d2c (0xA0 + 1 * 4) 4 = some 1050 ∧ 1024 ≤ 1050 ∧
    parseSucceeds d2c 2 = true ∧
    lookupParsed d2c 2 1 = some [100, 101, 102, 103] := by
  refine ⟨by decide, by decide, by decide, by decide⟩

/-- Claim C2, amended: `indirection[n]` is validated against the FILE
length: when the 32-byte slot record would extend past the end of the
file, identifier `n` is left unmapped exactly as if no slot existed (and
nothing is raised). The scenario's outcome (slot 1050 of a 1024-slot table
resolving to unmapped) holds precisely when that record falls outside the
file, e.g. when the file ends with the table. -/
theorem C2_slot_file_bounds (d : Bytes) (nTex n slot tableOff compOff : Nat)
    (ht : readLE d 0x80 4 = some tableOff) (hc : readLE d 0x98 4 = some compOff)
    (hok : parseSucceeds d nTex = true) (hn : n < nTex)
    (hs : readLE d (compOff + n * 4) 4 = some slot)
    (hoob : d.len < tableOff + slot * 32 + 32) :
    lookupParsed d nTex n = none := by
  rw [lookupParsed_eq d nTex n tableOff compOff ht hc hok hn]
  unfold stepValue
  rw [hs]
  dsimp only
  rw [if_pos (by omega : tableOff + slot * 32 + 32 > d.len)]

/-- Witness for C2: the spec's scenario on `d2w` (`N = 2`,
`indirection = [5, 1050]`, file ending with the 1024-slot table):
identifier 1's record lies past the file end and resolves to unmapped. -/
theorem C2_slot_file_bounds_witness : lookupParsed d2w 2 1 = none :=
  C2_slot_file_bounds d2w 2 1 1050 0xC0 0xA0 (by decide) (by decide)
    (by decide) (by decide) (by decide) (by decide)

/-- Claim C3, counterexample. The claim asserts an in-file slot maps `n`
exactly when `string_length > 0` and
`string_abs_offset + string_length ≤ file length`. In `d3c` slot 4 has
`str_abs = 199`, `str_len = 5` in a 200-byte file, so
`str_abs + str_len = 204 > 200`; the claim demands "unmapped", but the
code only checks `0 < str_abs < len` and maps identifier 0 to the decoded
clamped one-byte slice. -/
theorem C3_counterexample :
    word d3c 136 8 = 199 ∧ word d3c 144 8 = 5 ∧ d3c.len = 200 ∧
    parseSucceeds d3c 1 = true ∧ lookupParsed d3c 1 0 = some [33] := by
  refine ⟨by decide, by decide, by decide, by decide, by decide⟩

/-- Claim C3, amended: for an identifier whose slot record lies within the
file (and a parse that completes), `n` is mapped exactly when
`string_length > 0` and `0 < string_abs_offset < file length` — the sum
`string_abs_offset + string_length` is NOT checked; the decoded range is
the byte slice clamped at the end of the file, with undecodable bytes
replaced (never failing). -/
theorem C3_slot_occupancy (d : Bytes) (nTex n slot tableOff compOff : Nat)
    (ht : readLE d 0x80 4 = some tableOff) (hc : readLE d 0x98 4 = some compOff)
    (hok : parseSucceeds d nTex = true) (hn : n < nTex)
    (hs : readLE d (compOff + n * 4) 4 = some slot)
    (hin : tableOff + slot * 32 + 32 ≤ d.len) :
    lookupParsed d nTex n =
      if 0 < word d (tableOff + slot * 32 + 16) 8 ∧
          0 < word d (tableOff + slot * 32 + 8) 8 ∧
          word d (tableOff + slot * 32 + 8) 8 < d.len
      then some (decodeReplace (sliceBytes d (word d (tableOff + slot * 32 + 8) 8)
          (word d (tableOff + slot * 32 + 8) 8 + word d (tableOff + slot * 32 + 16) 8)))
      else none := by
  rw [lookupParsed_eq d nTex n tableOff compOff ht hc hok hn]
  unfold stepValue
  rw [hs]
  dsimp only
  rw [if_neg (by omega : ¬ tableOff + slot * 32 + 32 > d.len)]

/-- Witness for C3: identifier 0 of `d2w` resolves through slot 5 to the
decoded string "ok". -/
theorem C3_slot_occupancy_witness : lookupParsed d2w 2 0 = some [111, 107] := by
  have h := C3_slot_occupancy d2w 2 0 5 0xC0 0xA0 (by decide) (by decide)
    (by decide) (by decide) (by decide) (by decide)
  rw [h]
  decide

/-- Claim C4 (confirmed): when every backend declines or fails, `convert`
raises exactly one aggregated error carrying every attempted backend's
error text (`name: message`) in trial order; and in a run, an identifier
whose blob exists but whose backends all decline or fail contributes
exactly one entry to the failure list, the run completing regardless. -/
theorem C4_all_backends_fail :
    (∀ (bs : List Backend) (src : List Nat) (d0 : Option (List Nat)),
      (∀ p ∈ bs, (p.2 src).outcome ≠ BOutcome.returns) →
      (convert bs src d0).res = Except.error (bs.filterMap (failEntry src))) ∧
    (∀ (nTex : Nat) (imap blobs : Nat → Option (List Nat)) (bs : List Backend)
      (t0 : Tree) (n : Nat) (c : List Nat), n < nTex → blobs n = some c →
      (∀ p ∈ bs, (p.2 c).outcome ≠ BOutcome.returns) →
      ((runExtract nTex imap blobs bs t0).failed).countP
        (fun f => decide (f.1 = n)) = 1) := by
  constructor
  · intro bs src d0 h
    have hres := convertGo_allfail src bs [] d0 h
    simpa [convert] using hres
  · intro nTex imap blobs bs t0 n c hn hb hnr
    unfold runExtract
    induction nTex with
    | zero => omega
    | succ m ih =>
      rw [List.range_succ, List.foldl_append, List.foldl_cons, List.foldl_nil]
      rcases Nat.lt_succ_iff_lt_or_eq.mp hn with hlt | heq
      · rw [runStep_failed_ne imap blobs bs _ m n (by omega)]
        exact ih hlt
      · subst heq
        rw [runStep_failed_hit imap blobs bs _ n c hb hnr]
        rw [run_count_frozen imap blobs bs n (List.range n) _ (by simp)]
        rfl

/-- Witness for C4: the four configured backends all failing with distinct
messages produce a four-entry aggregated error in trial order, and the
run's failure list gains exactly one entry for that identifier. -/
theorem C4_all_backends_fail_witness :
    (convert allFail4 [0] none).res =
      Except.error ["imageio: e1", "Wand: e2", "Pillow: e3", "texconv: e4"] ∧
    ((runExtract 1 imap0 (fun _ => some [0]) allFail4 emptyTree).failed).countP
      (fun f => decide (f.1 = 0)) = 1 := by
  constructor
  · have h := C4_all_backends_fail.1 allFail4 [0] none (by decide)
    rw [h]
    decide
  · exact C4_all_backends_fail.2 1 imap0 (fun _ => some [0]) allFail4 emptyTree 0 [0]
      (by decide) rfl (by decide)

/-- Claim C5, counterexample. The claim says `convert` "stops at the first
backend producing a non-empty destination file". With `emptyFirst`,
imageio returns normally after writing an EMPTY destination file;
`convert` stops there and returns "imageio" (never invoking Wand, which
would have produced a non-empty file): the code's success check is
`os.path.exists(dst)`, not non-emptiness. -/
theorem C5_counterexample :
    (convert emptyFirst [0] none).res = Except.ok "imageio" ∧
    (convert emptyFirst [0] none).dst = some [] ∧
    (convert emptyFirst [0] none).trace = ["imageio"] := by
  refine ⟨by decide, by decide, by decide⟩

/-- Claim C5, amended: `convert` tries the backends in the fixed priority
order imageio, Wand, Pillow, texconv, invoking a prefix of that list, and
stops at the first backend that returns without raising and after whose
call the destination file EXISTS (possibly empty); that backend's name is
returned and no later backend is invoked. -/
theorem C5_first_success :
    (∀ b1 b2 b3 b4, (BACKENDS b1 b2 b3 b4).map Prod.fst =
      ["imageio", "Wand", "Pillow", "texconv"]) ∧
    (∀ (bs : List Backend) (src : List Nat) (d0 : Option (List Nat)),
      (∃ k, (convert bs src d0).trace = (bs.map Prod.fst).take k) ∧
      (∀ nm, (convert bs src d0).res = Except.ok nm →
        ((convert bs src d0).trace).getLast? = some nm ∧
        ((convert bs src d0).dst).isSome = true)) := by
  constructor
  · intro b1 b2 b3 b4
    rfl
  · intro bs src d0
    refine ⟨convertGo_trace_take src bs [] d0, ?_⟩
    intro nm h
    obtain ⟨_, h2, h3⟩ := convertGo_ok_spec src bs [] d0 nm h
    exact ⟨h2, h3⟩

/-- Witness for C5: with imageio failing and Wand succeeding on a non-empty
file, the trace ends at "Wand" and the destination exists. -/
theorem C5_first_success_witness :
    ((convert wandWins [0] none).trace).getLast? = some "Wand" ∧
    ((convert wandWins [0] none).dst).isSome = true :=
  (C5_first_success.2 wandWins [0] none).2 "Wand" (by decide)

/-- Claim C6, counterexample. The claim says a two-channel decoded image is
never written as two channels "regardless of which backend performs the
conversion". Only `try_imageio` contains the expansion; `try_wand` (and
`try_pillow`, `try_texconv`) delegate decode-and-write entirely to their
external library with no channel handling, so a wand decode producing a
two-channel image is written with two channels. -/
theorem C6_counterexample :
    twoChan.ndim = 3 ∧ twoChan.c = 2 ∧
    (try_wand (fun _ => twoChan) [0]).c = 2 :=
  ⟨rfl, rfl, rfl⟩

/-- Claim C6, amended: an image decoded by the IMAGEIO backend as a
3-dimensional array with exactly two channels is emitted as a
four-channel image whose channels 0 and 1 equal the decoded channels and
whose channels 2 and 3 are zero; the other backends perform no channel
handling in this code. -/
theorem C6_two_channel_pad (readImg : List Nat → Img) (src : List Nat)
    (h2 : (readImg src).ndim = 3 ∧ (readImg src).c = 2) :
    (try_imageio readImg src).ndim = 3 ∧ (try_imageio readImg src).c = 4 ∧
    ∀ y x, (try_imageio readImg src).px y x 0 = (readImg src).px y x 0 ∧
      (try_imageio readImg src).px y x 1 = (readImg src).px y x 1 ∧
      (try_imageio readImg src).px y x 2 = 0 ∧
      (try_imageio readImg src).px y x 3 = 0 := by
  unfold try_imageio padTwoChannel
  rw [if_pos h2]
  exact ⟨rfl, rfl, fun y x => ⟨rfl, rfl, rfl, rfl⟩⟩

/-- Witness for C6: the concrete 2-channel decode `cRead` is emitted with
four channels, channel 0 preserved and channel 3 zero. -/
theorem C6_two_channel_pad_witness :
    (try_imageio cRead [0]).c = 4 ∧ (try_imageio cRead [0]).px 0 0 0 = 5 ∧
    (try_imageio cRead [0]).px 0 0 3 = 0 := by
  have h := C6_two_channel_pad cRead [0] ⟨rfl, rfl⟩
  refine ⟨h.2.1, ?_, (h.2.2 0 0).2.2.2⟩
  rw [(h.2.2 0 0).1]
  rfl

/-- Claim C7 (confirmed): in every run, the identifiers recorded "missing"
are exactly those whose blob file is absent, in identifier order, and
every identifier lands in exactly one outcome class
(`ok + |failed| + |missing| = N`): a missing blob never aborts the run and
never prevents a later identifier from being processed. -/
theorem C7_missing_recorded (nTex : Nat) (imap blobs : Nat → Option (List Nat))
    (bs : List Backend) (t0 : Tree) :
    (runExtract nTex imap blobs bs t0).missing =
      (List.range nTex).filter (fun n => (blobs n).isNone) ∧
    (runExtract nTex imap blobs bs t0).ok +
      ((runExtract nTex imap blobs bs t0).failed).length +
      ((runExtract nTex imap blobs bs t0).missing).length = nTex := by
  obtain ⟨h1, h2⟩ := run_acc imap blobs bs (List.range nTex) ⟨t0, 0, [], []⟩
  unfold runExtract
  constructor
  · simpa using h1
  · simpa using h2

/-- Claim C8 (code bug), evaluation at the failing input: one identifier
with a resolved path whose blob is missing. The run records it missing
(`missing = [0]`, nothing failed, nothing converted), yet the summary's
`Named (...): X converted` count — `n in index_map and n not in
failed_ns` — still counts it, reporting 1 converted-with-path. The claim
(each identifier counted in exactly one class matching its actual
outcome) describes the intended summary; the code's count is wrong for
named identifiers that are missing on disk. -/
theorem C8_summary_eval :
    c8run.missing = [0] ∧ c8run.failed = [] ∧ c8run.ok = 0 ∧
    namedConvertedCount 1 c8imap c8run = 1 := by
  refine ⟨by decide, by decide, by decide, by decide⟩

/-- Claim C9, counterexample. One unmatched identifier; imageio returns
normally without writing, Wand writes the destination and then raises,
Pillow and texconv decline. Run 1 (from an empty tree) fails the
identifier but leaves the written file behind; run 2's `os.path.exists`
check then sees the stale file and converts "successfully": the two runs'
summary counts differ, refuting idempotence as claimed. -/
theorem C9_counterexample :
    (runExtract 1 imap0 blob9 staleTrap emptyTree).ok = 0 ∧
    ((runExtract 1 imap0 blob9 staleTrap emptyTree).failed).length = 1 ∧
    (runExtract 1 imap0 blob9 staleTrap
      (runExtract 1 imap0 blob9 staleTrap emptyTree).tree).ok = 1 ∧
    ((runExtract 1 imap0 blob9 staleTrap
      (runExtract 1 imap0 blob9 staleTrap emptyTree).tree).failed).length = 0 := by
  refine ⟨by decide, by decide, by decide, by decide⟩

/-- Claim C9, amended: two runs on unchanged input produce identical
summary accounting (ok count, failure records, missing list) and a
byte-identical output tree PROVIDED every backend invocation that returns
without raising actually creates the destination file; without that
proviso `convert`'s existence check can be satisfied by a file persisted
from the first run and flip an outcome (see the counterexample). -/
theorem C9_idempotent_when_writes (nTex : Nat)
    (imap blobs : Nat → Option (List Nat)) (bs : List Backend) (t0 : Tree)
    (hw : ∀ p ∈ bs, ∀ c, (p.2 c).outcome = BOutcome.returns →
      ((p.2 c).writes).isSome = true) :
    (runExtract nTex imap blobs bs (runExtract nTex imap blobs bs t0).tree).ok =
      (runExtract nTex imap blobs bs t0).ok ∧
    (runExtract nTex imap blobs bs (runExtract nTex imap blobs bs t0).tree).failed =
      (runExtract nTex imap blobs bs t0).failed ∧
    (runExtract nTex imap blobs bs (runExtract nTex imap blobs bs t0).tree).missing =
      (runExtract nTex imap blobs bs t0).missing ∧
    (runExtract nTex imap blobs bs (runExtract nTex imap blobs bs t0).tree).tree =
      (runExtract nTex imap blobs bs t0).tree := by
  obtain ⟨g1, g2, g3, g4⟩ := runSim imap blobs bs hw
    (runExtract nTex imap blobs bs t0).tree t0 (List.range nTex)
    ⟨(runExtract nTex imap blobs bs t0).tree, 0, [], []⟩ ⟨t0, 0, [], []⟩
    rfl rfl rfl (fun k => Or.inr ⟨rfl, rfl⟩)
  refine ⟨g1, g2, g3, ?_⟩
  funext k
  rcases g4 k with h | ⟨ha, _⟩
  · exact h
  · exact ha

/-- Witness for C9: with a backend that always writes on success, the
second run's ok count and tree equal the first run's. -/
theorem C9_idempotent_when_writes_witness :
    (runExtract 1 imap0 blob9 writeOk
      (runExtract 1 imap0 blob9 writeOk emptyTree).tree).ok =
      (runExtract 1 imap0 blob9 writeOk emptyTree).ok ∧
    (runExtract 1 imap0 blob9 writeOk
      (runExtract 1 imap0 blob9 writeOk emptyTree).tree).tree =
      (runExtract 1 imap0 blob9 writeOk emptyTree).tree := by
  have h := C9_idempotent_when_writes 1 imap0 blob9 writeOk emptyTree ?_
  · exact ⟨h.1, h.2.2.2⟩
  · intro p hp c hret
    simp only [writeOk, BACKENDS, List.mem_cons, List.not_mem_nil, or_false] at hp
    rcases hp with rfl | rfl | rfl | rfl
    · rfl
    · simp [bDecl] at hret
    · simp [bDecl] at hret
    · simp [bDecl] at hret

/-- Claim C10 (confirmed): whenever `convert` ends in the aggregated error,
every backend was invoked, and the error carries exactly the entries of
the backends that attempted and failed, in trial order — a backend that
returns normally without leaving a destination file contributes no entry
and the next backend is tried, and a declining (ImportError) backend
contributes none either, so the aggregated error can have strictly fewer
entries than backends invoked, possibly zero. -/
theorem C10_error_entries (bs : List Backend) (src : List Nat)
    (d0 : Option (List Nat)) (es : List String)
    (h : (convert bs src d0).res = Except.error es) :
    es = bs.filterMap (failEntry src) ∧
    (convert bs src d0).trace = bs.map Prod.fst := by
  have hspec := convertGo_error_spec src bs [] d0 es h
  simpa [convert] using hspec

/-- Witness for C10: imageio declines, Wand returns normally without
creating the destination, Pillow and texconv decline — all four are
invoked and the aggregated error has zero entries. -/
theorem C10_error_entries_witness :
    ([] : List String) = noEntry4.filterMap (failEntry [0]) ∧
    (convert noEntry4 [0] none).trace = ["imageio", "Wand", "Pillow", "texconv"] := by
  have h := C10_error_entries noEntry4 [0] none [] (by decide)
  refine ⟨h.1, ?_⟩
  rw [h.2]
  decide

end MioExtract
